import Mathlib

/-!
Shallow embedding of the qimgv `Core` orchestrator (core.cpp) together with
models of its collaborators (image cache, directory manager) as described in
the specification.  Core methods are translated as pure state transformers
`CoreState → CoreState × List Effect` (or `Option` thereof where the C++
code can dereference a null / dangling pointer, modelled as `none`).
Asynchronous calls to collaborators (loader submissions, display updates,
user messages, timer operations, cache mutex operations) are recorded as an
ordered trace of `Effect`s.
-/

/-- The image kinds distinguished by the code (`STATIC`, `ANIMATED`, `VIDEO`). -/
inductive ImageType where
  | static
  | animated
  | video
deriving DecidableEq, Repr

/-- An edit applied to a static image via `setEditedImage`; the pixel-level
`ImageLib::scale` / `ImageLib::rotate` functions are opaque pure functions in
the spec, so an edit is recorded symbolically by its parameters. -/
inductive EditOp where
  | scaled (w h : Int)
  | rotated (degrees : Int)
deriving DecidableEq, Repr

/-- A decoded image: stable `name` key, kind, pixel dimensions, source file
size in KB, and the list of edits applied to its content (empty for a freshly
decoded image; `setEditedImage` appends). -/
structure Image where
  name : String
  itype : ImageType
  width : Int
  height : Int
  fileSizeKB : Int
  edits : List EditOp
deriving DecidableEq, Repr

/-- The `ScalerRequest(forScale, size, path)` payload: the field holding the source path
is called `string` in the code (`req.string`). -/
structure ScalerRequest where
  imageName : String
  sizeW : Int
  sizeH : Int
  string : String
deriving DecidableEq, Repr

/-- The observable actions `Core` performs on its collaborators, in program
order: display updates, user-visible messages, debug-only log lines, loader
submissions, deletions of heap objects, timer and cache-mutex operations. -/
inductive Effect where
  | showMessage (text : String)
  | showMessageDirectoryEnd
  | showMessageDirectoryStart
  | setInfoString (text : String)
  | updateFrame (scaledId : Nat)
  | deleteScaled (scaledId : Nat)
  | deleteImage (img : Image)
  | showImage (img : Image)
  | showAnimation (img : Image)
  | showVideo (img : Image)
  | closeImage
  | showGui
  | imageIndexChanged (i : Int)
  | loadExclusive (path : String)
  | load (path : String)
  | loadBlocking (path : String)
  | debugLog (text : String)
  | startLoadingTimer
  | stopLoadingTimer
  | lockCache
  | unlockCache
deriving DecidableEq, Repr

/-- Whether an effect is a user-visible message (`mw->showMessage` and the
boundary notifications); `debugLog` (qDebug) is not user-visible. -/
def Effect.isUserMessage : Effect → Bool
  | .showMessage _ => true
  | .showMessageDirectoryEnd => true
  | .showMessageDirectoryStart => true
  | _ => false

/-- Whether an effect is a submission to the blocking loader entry point. -/
def Effect.isLoadBlocking : Effect → Bool
  | .loadBlocking _ => true
  | _ => false

/-- Whether an effect is a loader submission of any mode. -/
def Effect.isLoaderSubmission : Effect → Bool
  | .loadExclusive _ => true
  | .load _ => true
  | .loadBlocking _ => true
  | _ => false

/-- Modelled from the spec: a cache entry wraps an Image with a reservation
counter (§3 CacheEntry); the cache source itself is not part of the excerpt. -/
structure CacheEntry where
  key : String
  img : Image
  reserved : Nat
deriving DecidableEq, Repr

/-- Modelled from the spec: the keyed image cache (§4.1 ImageCache), an
association list of entries; the cache source itself is not in the excerpt. -/
structure Cache where
  entries : List CacheEntry
deriving DecidableEq, Repr

/-- Modelled from the spec: `contains(key)` (§4.1). -/
def Cache.contains (c : Cache) (key : String) : Bool :=
  c.entries.any (fun e => e.key == key)

/-- Modelled from the spec: `get(key)` returns a non-owning borrow, null if
absent (§4.1). -/
def Cache.get (c : Cache) (key : String) : Option Image :=
  (c.entries.find? (fun e => e.key == key)).map (fun e => e.img)

/-- Modelled from the spec: `insert(key, image)` succeeds and takes ownership
iff `key` is absent; on failure the caller retains ownership and the cache is
unchanged (§4.1). -/
def Cache.insert (c : Cache) (key : String) (img : Image) : Bool × Cache :=
  if c.contains key then (false, c)
  else (true, ⟨{ key := key, img := img, reserved := 0 } :: c.entries⟩)

/-- Helper for `Cache.reserve`: increments the reservation count of the entry
with the given key, or `none` when the key is absent. -/
def reserveEntries : List CacheEntry → String → Option (List CacheEntry)
  | [], _ => none
  | e :: rest, key =>
    if e.key = key then some ({ e with reserved := e.reserved + 1 } :: rest)
    else (reserveEntries rest key).map (fun es => e :: es)

/-- Modelled from the spec: `reserve(key)` succeeds (increments the
reservation count) only if `key` is present; fails if absent (§4.1). -/
def Cache.reserve (c : Cache) (key : String) : Bool × Cache :=
  match reserveEntries c.entries key with
  | some es => (true, ⟨es⟩)
  | none => (false, c)

/-- Helper for `Cache.release`: decrements the reservation count of the entry
with the given key. -/
def releaseEntries : List CacheEntry → String → List CacheEntry
  | [], _ => []
  | e :: rest, key =>
    if e.key = key then { e with reserved := e.reserved - 1 } :: rest
    else e :: releaseEntries rest key

/-- Modelled from the spec: `release(key)` decrements the reservation count
(§4.1). -/
def Cache.release (c : Cache) (key : String) : Cache :=
  ⟨releaseEntries c.entries key⟩

/-- Helper for `Cache.update`: replaces the image stored under the given key
(the in-place `setEditedImage` mutation seen through the cache). -/
def updateEntries : List CacheEntry → String → Image → List CacheEntry
  | [], _, _ => []
  | e :: rest, key, img =>
    if e.key = key then { e with img := img } :: rest
    else e :: updateEntries rest key img

/-- Modelled from the spec: in-place mutation of the image owned by the cache
under `key` (the edit writes through the borrowed pointer, §3 Image
ownership). -/
def Cache.update (c : Cache) (key : String) (img : Image) : Cache :=
  ⟨updateEntries c.entries key img⟩

/-- Modelled from the spec: `trimTo(keepKeys)` evicts every entry whose key is
not in `keepKeys` and whose reservation count is 0 (§4.1). -/
def Cache.trimTo (c : Cache) (keep : List String) : Cache :=
  ⟨c.entries.filter (fun e => keep.contains e.key || e.reserved != 0)⟩

/-- Modelled from the spec: `clear()` evicts everything with reservation
count 0 (§4.1). -/
def Cache.clear (c : Cache) : Cache :=
  ⟨c.entries.filter (fun e => e.reserved != 0)⟩

/-- Modelled from the spec: the directory collaborator (§6) — an ordered list
of image file names in a directory. -/
structure DirManager where
  dirPath : String
  files : List String
deriving DecidableEq, Repr

/-- Accessor `fileCount()`. -/
def DirManager.fileCount (dm : DirManager) : Int :=
  dm.files.length

/-- Accessor `fileNameAt(i)`; out-of-range indices yield the empty (null) string, as a
Qt collaborator returns a default-constructed QString there. -/
def DirManager.fileNameAt (dm : DirManager) (i : Int) : String :=
  if 0 ≤ i ∧ i < dm.fileCount then dm.files.getD i.toNat "" else ""

/-- Accessor `filePathAt(i)`: the directory path joined with the file name. -/
def DirManager.filePathAt (dm : DirManager) (i : Int) : String :=
  if 0 ≤ i ∧ i < dm.fileCount then dm.dirPath ++ "/" ++ dm.fileNameAt i else ""

/-- Accessor `indexOf(name)`: index of the first file with that name, `-1` if absent. -/
def DirManager.indexOf (dm : DirManager) (name : String) : Int :=
  match dm.files.findIdx? (fun f => f == name) with
  | some n => (n : Int)
  | none => -1

/-- Accessor `hasImages()`. -/
def DirManager.hasImages (dm : DirManager) : Bool :=
  dm.files.length != 0

/-- Accessor `checkRange(i)`. -/
def DirManager.checkRange (dm : DirManager) (i : Int) : Bool :=
  decide (0 ≤ i) && decide (i < dm.fileCount)

/-- The orchestrator's `State state` member: `currentIndex`,
`hasActiveImage`, `isWaitingForLoader`, `displayingFileName`. -/
structure NavState where
  currentIndex : Int
  hasActiveImage : Bool
  isWaitingForLoader : Bool
  displayingFileName : String
deriving DecidableEq, Repr

/-- The orchestrator's full state: navigation state, the cache, the directory
collaborator, and the two configuration flags read from settings. -/
structure CoreState where
  state : NavState
  cache : Cache
  dm : DirManager
  infiniteScrolling : Bool
  usePreloader : Bool
deriving DecidableEq, Repr

namespace Core

/-- Method `Core::updateInfoString`: builds
`"[ index+1 / count ]   name  (w x h  size KB)"`; while waiting for the
loader only the bracketed part is emitted.  When not waiting it dereferences
`cache->get(...)->name()`, so a cache miss is a null dereference (`none`). -/
def updateInfoString (s : CoreState) : Option (List Effect) :=
  let head := "[ " ++ toString (s.state.currentIndex + 1) ++ " / " ++
              toString s.dm.fileCount ++ " ]   "
  if s.state.isWaitingForLoader then
    some [Effect.setInfoString head]
  else
    match s.cache.get (s.dm.fileNameAt s.state.currentIndex) with
    | none => none
    | some img =>
      let fullName := img.name
      let name :=
        if fullName.length > 95 then
          fullName.take 95 ++ " (...) " ++ fullName.takeRight 12
        else fullName
      some [Effect.setInfoString (head ++ name ++ "  " ++
        "(" ++ toString img.width ++ " x " ++ toString img.height ++ "  " ++
        toString img.fileSizeKB ++ " KB)")]

/-- Method `Core::displayImage`: stops the loading timer, clears
`isWaitingForLoader`, sets `hasActiveImage`, then either hands the image to
the display surface by kind and refreshes the info string, or (null image)
shows an error message. -/
def displayImage (img : Option Image) (s : CoreState) :
    Option (CoreState × List Effect) :=
  let s1 : CoreState :=
    { s with state := { s.state with isWaitingForLoader := false,
                                     hasActiveImage := true } }
  match img with
  | none =>
    some (s1, [Effect.stopLoadingTimer,
               Effect.showMessage "Error: could not load image."])
  | some i =>
    let showFx : List Effect :=
      match i.itype with
      | .static => [Effect.showImage i]
      | .animated => [Effect.showAnimation i]
      | .video => [Effect.closeImage, Effect.showGui, Effect.showVideo i]
    let s2 : CoreState :=
      { s1 with state := { s1.state with displayingFileName := i.name } }
    match updateInfoString s2 with
    | none => none
    | some infoFx =>
      some (s2, Effect.stopLoadingTimer :: showFx ++
                [Effect.imageIndexChanged s2.state.currentIndex] ++ infoFx)

/-- Method `Core::trimCache`: trims the cache to the three-name window around the
current index, under the cache mutex. -/
def trimCache (s : CoreState) : CoreState × List Effect :=
  let keep := [s.dm.fileNameAt (s.state.currentIndex - 1),
               s.dm.fileNameAt s.state.currentIndex,
               s.dm.fileNameAt (s.state.currentIndex + 1)]
  ({ s with cache := s.cache.trimTo keep },
   [Effect.lockCache, Effect.unlockCache])

/-- Method `Core::onLoadStarted`: sets `isWaitingForLoader`, refreshes the info
string, starts the loading timer, trims the cache. -/
def onLoadStarted (s : CoreState) : CoreState × List Effect :=
  let s1 : CoreState :=
    { s with state := { s.state with isWaitingForLoader := true } }
  let infoFx := (updateInfoString s1).getD []
  let (s2, trimFx) := trimCache s1
  (s2, infoFx ++ [Effect.startLoadingTimer] ++ trimFx)

/-- Method `Core::onScalingFinished`: applies the scaled pixmap to the display only
when an image is active and the request's stored path still matches the path
at the current index; otherwise deletes the pixmap. -/
def onScalingFinished (scaledId : Nat) (req : ScalerRequest) (s : CoreState) :
    CoreState × List Effect :=
  if s.state.hasActiveImage ∧
     s.dm.filePathAt s.state.currentIndex = req.string then
    (s, [Effect.updateFrame scaledId])
  else
    (s, [Effect.deleteScaled scaledId])

/-- Method `Core::onLoadFinished(Image *img)`: computes the image's index from its
name (dereferencing `img` immediately, so a null image is a crash, `none`),
then: inside the relevant window `[currentIndex-1, currentIndex+1]` attempts
`insert` (on failure deletes the fresh image and fetches the survivor via
`get`); outside the window deletes the image unconditionally; finally, when
the index equals `currentIndex`, displays the resolved image.  In the
outside-window branch the `index == currentIndex` test would display a
just-deleted pointer; that branch is unreachable and modelled as a crash. -/
def onLoadFinished (img? : Option Image) (s : CoreState) :
    Option (CoreState × List Effect) :=
  match img? with
  | none => none
  | some im =>
    let index := s.dm.indexOf im.name
    let isRelevant : Bool :=
      !(decide (index < s.state.currentIndex - 1) ||
        decide (index > s.state.currentIndex + 1))
    let nameKey := s.dm.fileNameAt index
    if isRelevant then
      match s.cache.insert nameKey im with
      | (true, c1) =>
        let s1 : CoreState := { s with cache := c1 }
        if index = s.state.currentIndex then displayImage (some im) s1
        else some (s1, [])
      | (false, _) =>
        if index = s.state.currentIndex then
          match displayImage (s.cache.get nameKey) s with
          | none => none
          | some (s2, fx) => some (s2, Effect.deleteImage im :: fx)
        else some (s, [Effect.deleteImage im])
    else
      if index = s.state.currentIndex then none
      else some (s, [Effect.deleteImage im])

/-- Method `Core::loadByIndex`: on a valid index, sets `currentIndex`, runs the
start-of-load bookkeeping, then displays from the cache on a hit or submits
`loadExclusive` on a miss, returning `true`; returns `false` with no state
change on an out-of-range index. -/
def loadByIndex (index : Int) (s : CoreState) :
    Option (Bool × CoreState × List Effect) :=
  if 0 ≤ index ∧ index < s.dm.fileCount then
    let s1 : CoreState :=
      { s with state := { s.state with currentIndex := index } }
    let (s2, startFx) := onLoadStarted s1
    let nameKey := s2.dm.fileNameAt s2.state.currentIndex
    if s2.cache.contains nameKey then
      match displayImage (s2.cache.get nameKey) s2 with
      | none => none
      | some (s3, fx) => some (true, s3, startFx ++ fx)
    else
      some (true, s2,
            startFx ++ [Effect.loadExclusive
                          (s2.dm.filePathAt s2.state.currentIndex)])
  else
    some (false, s, [])

/-- Method `Core::loadByIndexBlocking`: textually the same body as
`Core::loadByIndex` — in particular the cache-miss path also calls
`loader->loadExclusive`, not the blocking loader. -/
def loadByIndexBlocking (index : Int) (s : CoreState) :
    Option (Bool × CoreState × List Effect) :=
  if 0 ≤ index ∧ index < s.dm.fileCount then
    let s1 : CoreState :=
      { s with state := { s.state with currentIndex := index } }
    let (s2, startFx) := onLoadStarted s1
    let nameKey := s2.dm.fileNameAt s2.state.currentIndex
    if s2.cache.contains nameKey then
      match displayImage (s2.cache.get nameKey) s2 with
      | none => none
      | some (s3, fx) => some (true, s3, startFx ++ fx)
    else
      some (true, s2,
            startFx ++ [Effect.loadExclusive
                          (s2.dm.filePathAt s2.state.currentIndex)])
  else
    some (false, s, [])

/-- Method `Core::preload`: speculative load of the file at `index` when the
preloader is enabled, the index is in range and the name is not cached. -/
def preload (index : Int) (s : CoreState) : List Effect :=
  if s.usePreloader && s.dm.checkRange index &&
     !(s.cache.contains (s.dm.fileNameAt index)) then
    [Effect.load (s.dm.filePathAt index)]
  else []

/-- Method `Core::slotNextImage`: steps to `currentIndex + 1`; past the last index
either wraps to 0 (infinite scrolling) or emits the directory-end message and
aborts; otherwise performs the load sequence and preloads the next
neighbor. -/
def slotNextImage (s : CoreState) : Option (CoreState × List Effect) :=
  if s.dm.hasImages then
    let index0 := s.state.currentIndex + 1
    if index0 ≥ s.dm.fileCount ∧ ¬s.infiniteScrolling then
      some (s, [Effect.showMessageDirectoryEnd])
    else
      let index := if index0 ≥ s.dm.fileCount then 0 else index0
      let s1 : CoreState :=
        { s with state := { s.state with currentIndex := index } }
      let (s2, startFx) := onLoadStarted s1
      let nameKey := s2.dm.fileNameAt s2.state.currentIndex
      let step : Option (CoreState × List Effect) :=
        if s2.cache.contains nameKey then
          displayImage (s2.cache.get nameKey) s2
        else
          some (s2, [Effect.loadExclusive
                       (s2.dm.filePathAt s2.state.currentIndex)])
      match step with
      | none => none
      | some (s3, fx) =>
        some (s3, startFx ++ fx ++ preload (index + 1) s3)
  else
    some (s, [])

/-- Method `Core::slotPrevImage`: steps to `currentIndex - 1`; before index 0 either
wraps to the last index (infinite scrolling) or emits the directory-start
message and aborts; otherwise performs the load sequence and preloads the
previous neighbor. -/
def slotPrevImage (s : CoreState) : Option (CoreState × List Effect) :=
  if s.dm.hasImages then
    let index0 := s.state.currentIndex - 1
    if index0 < 0 ∧ ¬s.infiniteScrolling then
      some (s, [Effect.showMessageDirectoryStart])
    else
      let index := if index0 < 0 then s.dm.fileCount - 1 else index0
      let s1 : CoreState :=
        { s with state := { s.state with currentIndex := index } }
      let (s2, startFx) := onLoadStarted s1
      let nameKey := s2.dm.fileNameAt s2.state.currentIndex
      let step : Option (CoreState × List Effect) :=
        if s2.cache.contains nameKey then
          displayImage (s2.cache.get nameKey) s2
        else
          some (s2, [Effect.loadExclusive
                       (s2.dm.filePathAt s2.state.currentIndex)])
      match step with
      | none => none
      | some (s3, fx) =>
        some (s3, startFx ++ fx ++ preload (index - 1) s3)
  else
    some (s, [])

/-- Method `Core::resize(QSize size)`: guarded by `currentIndex >= 0`; locks the
cache, reserves the current key (on failure unlocks and logs a debug line);
on a reserved static image applies `ImageLib::scale` through
`setEditedImage`, releases, unlocks and redisplays; on any other reserved
image releases, unlocks and shows the unsupported-editing message. -/
def resize (sizeW sizeH : Int) (s : CoreState) :
    Option (CoreState × List Effect) :=
  if 0 ≤ s.state.currentIndex then
    let nameKey := s.dm.fileNameAt s.state.currentIndex
    match s.cache.reserve nameKey with
    | (true, c2) =>
      match c2.get nameKey with
      | some img =>
        if img.itype = ImageType.static then
          let img' : Image :=
            { img with edits := img.edits ++ [EditOp.scaled sizeW sizeH] }
          let c3 := (c2.update nameKey img').release nameKey
          match displayImage (some img') { s with cache := c3 } with
          | none => none
          | some (s4, fx) =>
            some (s4, Effect.lockCache :: Effect.unlockCache :: fx)
        else
          some ({ s with cache := c2.release nameKey },
                [Effect.lockCache, Effect.unlockCache,
                 Effect.showMessage "Editing gifs/video is unsupported."])
      | none =>
        some ({ s with cache := c2.release nameKey },
              [Effect.lockCache, Effect.unlockCache,
               Effect.showMessage "Editing gifs/video is unsupported."])
    | (false, _) =>
      some (s, [Effect.lockCache, Effect.unlockCache,
                Effect.debugLog
                  "Core::resize() - could not lock cache object."])
  else
    some (s, [])

/-- Method `Core::rotateByDegrees(int degrees)`: same shape as `Core::resize`, with
`ImageLib::rotate` as the edit and its own debug log line. -/
def rotateByDegrees (degrees : Int) (s : CoreState) :
    Option (CoreState × List Effect) :=
  if 0 ≤ s.state.currentIndex then
    let nameKey := s.dm.fileNameAt s.state.currentIndex
    match s.cache.reserve nameKey with
    | (true, c2) =>
      match c2.get nameKey with
      | some img =>
        if img.itype = ImageType.static then
          let img' : Image :=
            { img with edits := img.edits ++ [EditOp.rotated degrees] }
          let c3 := (c2.update nameKey img').release nameKey
          match displayImage (some img') { s with cache := c3 } with
          | none => none
          | some (s4, fx) =>
            some (s4, Effect.lockCache :: Effect.unlockCache :: fx)
        else
          some ({ s with cache := c2.release nameKey },
                [Effect.lockCache, Effect.unlockCache,
                 Effect.showMessage "Editing gifs/video is unsupported."])
      | none =>
        some ({ s with cache := c2.release nameKey },
              [Effect.lockCache, Effect.unlockCache,
               Effect.showMessage "Editing gifs/video is unsupported."])
    | (false, _) =>
      some (s, [Effect.lockCache, Effect.unlockCache,
                Effect.debugLog
                  "Core::rotateByDegrees() - could not lock cache object."])
  else
    some (s, [])

end Core

/-- The file names of the valid indices in the relevant window
`{k-1, k, k+1} ∩ [0, fileCount)`. -/
def windowKeys (k : Int) (dm : DirManager) : List String :=
  ([k - 1, k, k + 1].filter
    (fun j => decide (0 ≤ j) && decide (j < dm.fileCount))).map dm.fileNameAt

theorem reserveEntries_isSome (l : List CacheEntry) (k : String) :
    (reserveEntries l k).isSome = l.any (fun e => e.key == k) := by
  induction l with
  | nil => simp [reserveEntries]
  | cons e rest ih =>
    by_cases h : e.key = k
    · simp [reserveEntries, h]
    · simp [reserveEntries, h, ih]

theorem releaseEntries_reserveEntries (l : List CacheEntry) (k : String) :
    ∀ es, reserveEntries l k = some es → releaseEntries es k = l := by
  induction l with
  | nil => intro es h; simp [reserveEntries] at h
  | cons e rest ih =>
    intro es h
    obtain ⟨ek, ei, er⟩ := e
    by_cases hk : ek = k
    · subst hk
      simp [reserveEntries] at h
      subst h
      simp [releaseEntries]
    · simp only [reserveEntries, if_neg hk, Option.map_eq_some'] at h
      obtain ⟨es', hes', rfl⟩ := h
      simp [releaseEntries, hk, ih es' hes']

theorem findEntry_reserveEntries (l : List CacheEntry) (k k' : String) :
    ∀ es, reserveEntries l k = some es →
      (es.find? (fun e => e.key == k')).map (fun e => e.img)
        = (l.find? (fun e => e.key == k')).map (fun e => e.img) := by
  induction l with
  | nil => intro es h; simp [reserveEntries] at h
  | cons e rest ih =>
    intro es h
    obtain ⟨ek, ei, er⟩ := e
    by_cases hk : ek = k
    · subst hk
      simp [reserveEntries] at h
      subst h
      by_cases hk' : ek = k'
      · have hb : (ek == k') = true := by simp [hk']
        simp [List.find?, hb]
      · have hb : (ek == k') = false := by simp [hk']
        simp [List.find?, hb]
    · simp only [reserveEntries, if_neg hk, Option.map_eq_some'] at h
      obtain ⟨es', hes', rfl⟩ := h
      by_cases hk' : ek = k'
      · have hb : (ek == k') = true := by simp [hk']
        simp [List.find?, hb]
      · have hb : (ek == k') = false := by simp [hk']
        simp [List.find?, hb, ih es' hes']

theorem anyKey_eq_isSome_find (l : List CacheEntry) (k : String) :
    (l.any fun e => e.key == k) = (l.find? fun e => e.key == k).isSome := by
  induction l with
  | nil => simp
  | cons e rest ih =>
    obtain ⟨ek, ei, er⟩ := e
    by_cases h : ek = k
    · have hb : (ek == k) = true := by simp [h]
      simp [List.find?, hb]
    · have hb : (ek == k) = false := by simp [h]
      simp [List.find?, hb, ih]

theorem contains_eq_isSome_get (c : Cache) (k : String) :
    c.contains k = (c.get k).isSome := by
  unfold Cache.contains Cache.get
  rw [anyKey_eq_isSome_find]
  cases c.entries.find? fun e => e.key == k <;> simp

theorem reserve_of_get_some (c : Cache) (k : String) (img : Image)
    (h : c.get k = some img) :
    ∃ c2, c.reserve k = (true, c2) ∧ c2.get k = some img ∧
          c2.release k = c := by
  have hc : c.contains k = true := by
    rw [contains_eq_isSome_get, h]; rfl
  have hsome : (reserveEntries c.entries k).isSome = true := by
    rw [reserveEntries_isSome]; exact hc
  obtain ⟨es, hes⟩ := Option.isSome_iff_exists.mp hsome
  refine ⟨⟨es⟩, ?_, ?_, ?_⟩
  · unfold Cache.reserve
    rw [hes]
  · show (es.find? _).map _ = some img
    rw [findEntry_reserveEntries c.entries k k es hes]
    exact h
  · show Cache.mk (releaseEntries es k) = c
    rw [releaseEntries_reserveEntries c.entries k es hes]

theorem reserve_of_not_contains (c : Cache) (k : String)
    (h : c.contains k = false) : c.reserve k = (false, c) := by
  have hs : (reserveEntries c.entries k).isSome = false := by
    rw [reserveEntries_isSome]; exact h
  have hnone : reserveEntries c.entries k = none :=
    Option.not_isSome_iff_eq_none.mp (by simp [hs])
  unfold Cache.reserve
  rw [hnone]

theorem get_insert_self (c : Cache) (k : String) (img : Image)
    (h : (c.insert k img).1 = true) : (c.insert k img).2.get k = some img := by
  unfold Cache.insert at *
  by_cases hc : c.contains k
  · simp [hc] at h
  · simp [hc, Cache.get, List.find?]

theorem insert_fst_eq (c : Cache) (k : String) (img : Image) :
    (c.insert k img).1 = !c.contains k := by
  unfold Cache.insert
  by_cases hc : c.contains k <;> simp [hc]

theorem mem_trimTo (c : Cache) (keep : List String) (e : CacheEntry)
    (h : e ∈ (c.trimTo keep).entries) :
    e ∈ c.entries ∧ (keep.contains e.key = true ∨ e.reserved ≠ 0) := by
  unfold Cache.trimTo at h
  simp only [List.mem_filter, Bool.or_eq_true, bne_iff_ne, ne_eq] at h
  exact ⟨h.1, h.2⟩

/-- The navigation-state update `Core::displayImage` performs: the loading
flag is cleared, the active flag is set, and the displayed file name becomes
`dn`. -/
def CoreState.afterDisplay (s : CoreState) (dn : String) : CoreState :=
  { s with state := { s.state with isWaitingForLoader := false,
                                   hasActiveImage := true,
                                   displayingFileName := dn } }

theorem updateInfoString_waiting (s : CoreState)
    (h : s.state.isWaitingForLoader = true) :
    Core.updateInfoString s =
      some [Effect.setInfoString ("[ " ++ toString (s.state.currentIndex + 1) ++
        " / " ++ toString s.dm.fileCount ++ " ]   ")] := by
  unfold Core.updateInfoString
  simp [h]

theorem displayImage_shape (img : Option Image) (s : CoreState)
    (r : CoreState × List Effect) (h : Core.displayImage img s = some r) :
    ∃ dn, r.1 = s.afterDisplay dn := by
  cases img with
  | none =>
    simp only [Core.displayImage, Option.some.injEq] at h
    exact ⟨s.state.displayingFileName, by rw [← h]; rfl⟩
  | some i =>
    simp only [Core.displayImage] at h
    split at h
    · exact absurd h (by simp)
    · simp only [Option.some.injEq] at h
      exact ⟨i.name, by rw [← h]; rfl⟩

theorem displayImage_total (img : Image) (s : CoreState) (surv : Image)
    (h : s.cache.get (s.dm.fileNameAt s.state.currentIndex) = some surv) :
    ∃ r, Core.displayImage (some img) s = some r := by
  simp only [Core.displayImage, Core.updateInfoString]
  simp [h]

/-- A sample static image, for instantiating theorems at concrete inputs. -/
def sampleImage : Image :=
  { name := "a.png", itype := ImageType.static, width := 10, height := 20,
    fileSizeKB := 5, edits := [] }

/-- A second sample image whose name is the second directory entry. -/
def sampleImageB : Image :=
  { name := "b.png", itype := ImageType.static, width := 10, height := 20,
    fileSizeKB := 5, edits := [] }

/-- A sample three-file directory. -/
def sampleDm : DirManager :=
  { dirPath := "/d", files := ["a.png", "b.png", "c.png"] }

/-- A sample state: first file selected, displayed and cached. -/
def sampleState : CoreState :=
  { state := { currentIndex := 0, hasActiveImage := true,
               isWaitingForLoader := false, displayingFileName := "a.png" },
    cache := ⟨[⟨"a.png", sampleImage, 0⟩]⟩, dm := sampleDm,
    infiniteScrolling := false, usePreloader := false }

/-- C1: for every completed scale request, the orchestrator applies the
scaled result to the display only if the request's source path (`req.string`)
equals `filePathAt(currentIndex)` at completion time; whenever the path
differs the scaled result is deleted and no frame update is emitted. -/
theorem c1_stale_scale_rejection (scaledId : Nat) (req : ScalerRequest)
    (s : CoreState) :
    (req.string ≠ s.dm.filePathAt s.state.currentIndex →
      Core.onScalingFinished scaledId req s =
        (s, [Effect.deleteScaled scaledId])) ∧
    (Effect.updateFrame scaledId ∈ (Core.onScalingFinished scaledId req s).2 →
      req.string = s.dm.filePathAt s.state.currentIndex) := by
  unfold Core.onScalingFinished
  constructor
  · intro hne
    rw [if_neg]
    intro hc
    exact hne hc.2.symm
  · intro hmem
    by_cases hc : s.state.hasActiveImage = true ∧
        s.dm.filePathAt s.state.currentIndex = req.string
    · exact hc.2.symm
    · rw [if_neg hc] at hmem
      simp at hmem

/-- Witness for C1 at a concrete stale request and a concrete matching
request. -/
theorem c1_stale_scale_rejection_witness :
    Core.onScalingFinished 7 ⟨"a.png", 1, 1, "/d/zzz"⟩ sampleState =
      (sampleState, [Effect.deleteScaled 7]) :=
  (c1_stale_scale_rejection 7 ⟨"a.png", 1, 1, "/d/zzz"⟩ sampleState).1
    (by decide)

/-- C3 (the code evaluated at the failing input): `Core::onLoadFinished`
computes `img->name()` before any null check, so a null image from a failed
decode is an unguarded null dereference — a crash (`none`) — in every
state, where the spec requires the notification receiver not to crash. -/
theorem c3_null_load_crash (s : CoreState) :
    Core.onLoadFinished none s = none := rfl

/-- C6 counterexample: at a concrete state that is waiting for the loader, a
null image passed to `Core::displayImage` transitions `isWaitingForLoader` to
`false` (and sets `hasActiveImage`), contradicting the claim that on decode
failure the orchestrator "does not transition isWaitingForLoader to
false". -/
theorem c6_counterexample :
    ({ sampleState with
       state := { sampleState.state with isWaitingForLoader := true,
                                         hasActiveImage := false } }
        : CoreState).state.isWaitingForLoader = true ∧
    (Core.displayImage none
        { sampleState with
          state := { sampleState.state with isWaitingForLoader := true,
                                            hasActiveImage := false } }).map
        (fun r => (r.1.state.isWaitingForLoader, r.1.state.hasActiveImage)) =
      some (false, true) := by decide

/-- C6 amended: on a null image `Core::displayImage` emits exactly the
non-fatal error message (no abort, no display-surface effect — the previous
frame stays), but it does set `isWaitingForLoader := false` and
`hasActiveImage := true`, leaving `displayingFileName` unchanged. -/
theorem c6_null_display_nonfatal (s : CoreState) :
    Core.displayImage none s =
      some (s.afterDisplay s.state.displayingFileName,
            [Effect.stopLoadingTimer,
             Effect.showMessage "Error: could not load image."]) := rfl

/-- C7: an edit (resize or rotate) requested while the cached current image's
kind is not Static releases the reservation, unlocks the cache and reports
the unsupported-editing message with no state mutation: the resulting state
is exactly the input state (image content, cache contents and navigation
state unchanged), and the trace is lock, unlock, message. -/
theorem c7_unsupported_edit (sizeW sizeH degrees : Int) (s : CoreState)
    (img : Image)
    (hidx : 0 ≤ s.state.currentIndex)
    (hget : s.cache.get (s.dm.fileNameAt s.state.currentIndex) = some img)
    (hkind : img.itype ≠ ImageType.static) :
    Core.resize sizeW sizeH s =
      some (s, [Effect.lockCache, Effect.unlockCache,
                Effect.showMessage "Editing gifs/video is unsupported."]) ∧
    Core.rotateByDegrees degrees s =
      some (s, [Effect.lockCache, Effect.unlockCache,
                Effect.showMessage "Editing gifs/video is unsupported."]) := by
  obtain ⟨c2, hres, hget2, hrel⟩ :=
    reserve_of_get_some s.cache (s.dm.fileNameAt s.state.currentIndex) img hget
  constructor
  · simp only [Core.resize, if_pos hidx, hres, hget2, if_neg hkind, hrel]
  · simp only [Core.rotateByDegrees, if_pos hidx, hres, hget2, if_neg hkind,
               hrel]

/-- Witness for C7 at a concrete state whose current image is animated. -/
theorem c7_unsupported_edit_witness :
    Core.resize 3 4
        { sampleState with
          cache := ⟨[⟨"a.png", { sampleImage with
                                 itype := ImageType.animated }, 0⟩]⟩ } =
      some ({ sampleState with
              cache := ⟨[⟨"a.png", { sampleImage with
                                     itype := ImageType.animated }, 0⟩]⟩ },
            [Effect.lockCache, Effect.unlockCache,
             Effect.showMessage "Editing gifs/video is unsupported."]) ∧
    Core.rotateByDegrees 90
        { sampleState with
          cache := ⟨[⟨"a.png", { sampleImage with
                                 itype := ImageType.animated }, 0⟩]⟩ } =
      some ({ sampleState with
              cache := ⟨[⟨"a.png", { sampleImage with
                                     itype := ImageType.animated }, 0⟩]⟩ },
            [Effect.lockCache, Effect.unlockCache,
             Effect.showMessage "Editing gifs/video is unsupported."]) :=
  c7_unsupported_edit 3 4 90 _ { sampleImage with itype := ImageType.animated }
    (by decide) (by decide) (by decide)

/-- C8 counterexample: at a concrete state whose current key cannot be
reserved (empty cache), `Core::resize` aborts emitting only a qDebug
developer log — no user-visible message — refuting the claim that this
abort path shows a user-visible message. -/
theorem c8_counterexample :
    (({ sampleState with cache := ⟨[]⟩ } : CoreState).cache.reserve
        (sampleDm.fileNameAt 0)).1 = false ∧
    Core.resize 3 4 { sampleState with cache := ⟨[]⟩ } =
      some ({ sampleState with cache := ⟨[]⟩ },
            [Effect.lockCache, Effect.unlockCache,
             Effect.debugLog
               "Core::resize() - could not lock cache object."]) ∧
    ([Effect.lockCache, Effect.unlockCache,
      Effect.debugLog "Core::resize() - could not lock cache object."].any
        Effect.isUserMessage) = false := by decide

/-- C8 amended: when reserving the current key fails during an edit, the
operation aborts having released the cache lock on that exit path (the trace
is exactly lock, unlock, log) and mutates nothing — but the only output is
a qDebug developer log line, not a user-visible message. -/
theorem c8_reserve_failure_abort (sizeW sizeH degrees : Int) (s : CoreState)
    (hidx : 0 ≤ s.state.currentIndex)
    (hc : s.cache.contains (s.dm.fileNameAt s.state.currentIndex) = false) :
    Core.resize sizeW sizeH s =
      some (s, [Effect.lockCache, Effect.unlockCache,
                Effect.debugLog
                  "Core::resize() - could not lock cache object."]) ∧
    Core.rotateByDegrees degrees s =
      some (s, [Effect.lockCache, Effect.unlockCache,
                Effect.debugLog
                  "Core::rotateByDegrees() - could not lock cache object."]) ∧
    ([Effect.lockCache, Effect.unlockCache,
      Effect.debugLog "Core::resize() - could not lock cache object."].any
        Effect.isUserMessage) = false := by
  have hres := reserve_of_not_contains s.cache
    (s.dm.fileNameAt s.state.currentIndex) hc
  refine ⟨?_, ?_, by decide⟩
  · simp only [Core.resize, if_pos hidx, hres]
  · simp only [Core.rotateByDegrees, if_pos hidx, hres]

/-- Witness for C8's amended claim at a concrete empty-cache state. -/
theorem c8_reserve_failure_abort_witness :
    Core.resize 3 4 { sampleState with cache := ⟨[]⟩ } =
      some ({ sampleState with cache := ⟨[]⟩ },
            [Effect.lockCache, Effect.unlockCache,
             Effect.debugLog
               "Core::resize() - could not lock cache object."]) ∧
    Core.rotateByDegrees 90 { sampleState with cache := ⟨[]⟩ } =
      some ({ sampleState with cache := ⟨[]⟩ },
            [Effect.lockCache, Effect.unlockCache,
             Effect.debugLog
               "Core::rotateByDegrees() - could not lock cache object."]) ∧
    ([Effect.lockCache, Effect.unlockCache,
      Effect.debugLog "Core::resize() - could not lock cache object."].any
        Effect.isUserMessage) = false :=
  c8_reserve_failure_abort 3 4 90 { sampleState with cache := ⟨[]⟩ }
    (by decide) (by decide)

theorem updateInfoString_shape (s : CoreState) (fx : List Effect)
    (h : Core.updateInfoString s = some fx) :
    ∃ t, fx = [Effect.setInfoString t] := by
  unfold Core.updateInfoString at h
  split at h
  · simp only [Option.some.injEq] at h
    exact ⟨_, h.symm⟩
  · split at h
    · exact absurd h (by simp)
    · simp only [Option.some.injEq] at h
      exact ⟨_, h.symm⟩

theorem isLoaderSubmission_of_isLoadBlocking (e : Effect)
    (h : e.isLoadBlocking = true) : e.isLoaderSubmission = true := by
  cases e <;> simp_all [Effect.isLoadBlocking, Effect.isLoaderSubmission]

theorem any_isLoadBlocking_false (l : List Effect)
    (h : l.any Effect.isLoaderSubmission = false) :
    l.any Effect.isLoadBlocking = false := by
  rw [List.any_eq_false] at *
  intro e he hb
  exact h e he (isLoaderSubmission_of_isLoadBlocking e hb)

theorem displayImage_no_loader (img : Option Image) (s : CoreState)
    (r : CoreState × List Effect) (h : Core.displayImage img s = some r) :
    r.2.any Effect.isLoaderSubmission = false := by
  cases img with
  | none =>
    simp only [Core.displayImage, Option.some.injEq] at h
    rw [← h]
    rfl
  | some i =>
    simp only [Core.displayImage] at h
    split at h
    · exact absurd h (by simp)
    · rename_i infoFx heq
      obtain ⟨t, rfl⟩ := updateInfoString_shape _ _ heq
      simp only [Option.some.injEq] at h
      rw [← h]
      cases i.itype <;> rfl

theorem loadByIndex_no_blocking (i : Int) (s : CoreState)
    (r : Bool × CoreState × List Effect) (h : Core.loadByIndex i s = some r) :
    r.2.2.any Effect.isLoadBlocking = false := by
  unfold Core.loadByIndex at h
  by_cases hrange : 0 ≤ i ∧ i < s.dm.fileCount
  · rw [if_pos hrange] at h
    simp only [Core.onLoadStarted, Core.trimCache, Core.updateInfoString] at h
    split at h
    · split at h
      · exact absurd h (by simp)
      · rename_i p heq
        have hfl := any_isLoadBlocking_false _ (displayImage_no_loader _ _ _ heq)
        simp only [Option.some.injEq] at h
        subst h
        simp [List.any_append, hfl, Effect.isLoadBlocking, Option.getD]
    · simp only [Option.some.injEq] at h
      subst h
      simp [List.any_append, Effect.isLoadBlocking, Option.getD]
  · rw [if_neg hrange] at h
    simp only [Option.some.injEq] at h
    subst h
    rfl

theorem slotNextImage_boundary (s : CoreState)
    (hhas : s.dm.hasImages = true)
    (hge : s.state.currentIndex + 1 ≥ s.dm.fileCount)
    (hinf : s.infiniteScrolling = false) :
    Core.slotNextImage s = some (s, [Effect.showMessageDirectoryEnd]) := by
  unfold Core.slotNextImage
  rw [if_pos hhas]
  rw [if_pos ⟨hge, by simp [hinf]⟩]

theorem slotNextImage_wrap (s : CoreState)
    (hhas : s.dm.hasImages = true)
    (hge : s.state.currentIndex + 1 ≥ s.dm.fileCount)
    (hinf : s.infiniteScrolling = true) :
    ∃ s' fx, Core.slotNextImage s = some (s', fx) ∧
             s'.state.currentIndex = 0 := by
  unfold Core.slotNextImage
  rw [if_pos hhas]
  rw [if_neg (by simp [hinf])]
  rw [if_pos hge]
  simp only [Core.onLoadStarted, Core.trimCache]
  by_cases hc : (s.cache.trimTo [s.dm.fileNameAt (0 - 1), s.dm.fileNameAt 0,
      s.dm.fileNameAt (0 + 1)]).contains (s.dm.fileNameAt 0) = true
  · rw [if_pos hc]
    rw [contains_eq_isSome_get] at hc
    obtain ⟨surv, hsurv⟩ := Option.isSome_iff_exists.mp hc
    rw [hsurv]
    cases hdisp : Core.displayImage (some surv)
        { state := { currentIndex := 0, hasActiveImage := s.state.hasActiveImage,
                     isWaitingForLoader := true,
                     displayingFileName := s.state.displayingFileName },
          cache := s.cache.trimTo [s.dm.fileNameAt (0 - 1), s.dm.fileNameAt 0,
                                   s.dm.fileNameAt (0 + 1)],
          dm := s.dm, infiniteScrolling := s.infiniteScrolling,
          usePreloader := s.usePreloader } with
    | none =>
      obtain ⟨r, hr⟩ := displayImage_total surv
        { state := { currentIndex := 0, hasActiveImage := s.state.hasActiveImage,
                     isWaitingForLoader := true,
                     displayingFileName := s.state.displayingFileName },
          cache := s.cache.trimTo [s.dm.fileNameAt (0 - 1), s.dm.fileNameAt 0,
                                   s.dm.fileNameAt (0 + 1)],
          dm := s.dm, infiniteScrolling := s.infiniteScrolling,
          usePreloader := s.usePreloader } surv hsurv
      rw [hdisp] at hr
      exact absurd hr (by simp)
    | some p =>
      obtain ⟨s3, fx⟩ := p
      refine ⟨s3, _, rfl, ?_⟩
      obtain ⟨dn, hdn⟩ := displayImage_shape _ _ _ hdisp
      have hs3 : s3 = CoreState.afterDisplay
        { state := { currentIndex := 0, hasActiveImage := s.state.hasActiveImage,
                     isWaitingForLoader := true,
                     displayingFileName := s.state.displayingFileName },
          cache := s.cache.trimTo [s.dm.fileNameAt (0 - 1), s.dm.fileNameAt 0,
                                   s.dm.fileNameAt (0 + 1)],
          dm := s.dm, infiniteScrolling := s.infiniteScrolling,
          usePreloader := s.usePreloader } dn := hdn
      rw [hs3]
      rfl
  · rw [if_neg hc]
    exact ⟨_, _, rfl, rfl⟩

theorem loadByIndex_cache (k : Int) (s : CoreState)
    (s' : CoreState) (fx : List Effect)
    (hrun : Core.loadByIndex k s = some (true, s', fx)) :
    s'.cache = s.cache.trimTo [s.dm.fileNameAt (k - 1), s.dm.fileNameAt k,
                               s.dm.fileNameAt (k + 1)] := by
  unfold Core.loadByIndex at hrun
  by_cases hrange : 0 ≤ k ∧ k < s.dm.fileCount
  · rw [if_pos hrange] at hrun
    simp only [Core.onLoadStarted, Core.trimCache] at hrun
    split at hrun
    · split at hrun
      · exact absurd hrun (by simp)
      · rename_i s3 p heq
        obtain ⟨dn, hdn⟩ := displayImage_shape _ _ _ heq
        simp only [Option.some.injEq, Prod.mk.injEq] at hrun
        obtain ⟨-, hs', -⟩ := hrun
        rw [← hs']
        have h2 : s3 = CoreState.afterDisplay
            { state := { currentIndex := k,
                         hasActiveImage := s.state.hasActiveImage,
                         isWaitingForLoader := true,
                         displayingFileName := s.state.displayingFileName },
              cache := s.cache.trimTo [s.dm.fileNameAt (k - 1),
                                       s.dm.fileNameAt k,
                                       s.dm.fileNameAt (k + 1)],
              dm := s.dm, infiniteScrolling := s.infiniteScrolling,
              usePreloader := s.usePreloader } dn := hdn
        rw [h2]
        rfl
    · simp only [Option.some.injEq, Prod.mk.injEq] at hrun
      obtain ⟨-, hs', -⟩ := hrun
      rw [← hs']
  · rw [if_neg hrange] at hrun
    simp at hrun

theorem key_mem_windowKeys (dm : DirManager) (k j : Int) (key : String)
    (hj : j = k - 1 ∨ j = k ∨ j = k + 1)
    (hkey : key = dm.fileNameAt j) (hne : key ≠ "") :
    key ∈ windowKeys k dm := by
  by_cases hv : 0 ≤ j ∧ j < dm.fileCount
  · subst hkey
    unfold windowKeys
    apply List.mem_map_of_mem
    rw [List.mem_filter]
    refine ⟨?_, by simp [hv.1, hv.2]⟩
    rcases hj with rfl | rfl | rfl <;> simp
  · exfalso
    apply hne
    rw [hkey]
    unfold DirManager.fileNameAt
    rw [if_neg hv]

/-- C2: for every load completion carrying an image with name `n` and
`i = indexOf(n)`: outside the window `[currentIndex-1, currentIndex+1]` the
just-decoded image is deleted unconditionally with no state change; inside
the window `insert` is attempted — on success with `i ≠ currentIndex` only
the cache changes, on failure with `i ≠ currentIndex` the fresh image is
deleted and nothing else changes; when `i = currentIndex` the resolved image
(the freshly inserted one on insert success, else the surviving cached one
fetched via `get`) is handed to `displayImage`, and the resulting state has
`isWaitingForLoader = false` and `hasActiveImage = true`. -/
theorem c2_load_completion (im : Image) (s : CoreState) :
    ((s.dm.indexOf im.name < s.state.currentIndex - 1 ∨
      s.dm.indexOf im.name > s.state.currentIndex + 1) →
       Core.onLoadFinished (some im) s = some (s, [Effect.deleteImage im])) ∧
    (¬(s.dm.indexOf im.name < s.state.currentIndex - 1 ∨
       s.dm.indexOf im.name > s.state.currentIndex + 1) →
     s.dm.indexOf im.name ≠ s.state.currentIndex →
     (s.cache.insert (s.dm.fileNameAt (s.dm.indexOf im.name)) im).1 = true →
       Core.onLoadFinished (some im) s =
         some ({ s with cache :=
                  (s.cache.insert (s.dm.fileNameAt (s.dm.indexOf im.name))
                    im).2 }, [])) ∧
    (¬(s.dm.indexOf im.name < s.state.currentIndex - 1 ∨
       s.dm.indexOf im.name > s.state.currentIndex + 1) →
     s.dm.indexOf im.name ≠ s.state.currentIndex →
     (s.cache.insert (s.dm.fileNameAt (s.dm.indexOf im.name)) im).1 = false →
       Core.onLoadFinished (some im) s = some (s, [Effect.deleteImage im])) ∧
    (s.dm.indexOf im.name = s.state.currentIndex →
     (s.cache.insert (s.dm.fileNameAt (s.dm.indexOf im.name)) im).1 = true →
       Core.onLoadFinished (some im) s =
         Core.displayImage (some im)
           { s with cache :=
              (s.cache.insert (s.dm.fileNameAt (s.dm.indexOf im.name))
                im).2 }) ∧
    (s.dm.indexOf im.name = s.state.currentIndex →
     (s.cache.insert (s.dm.fileNameAt (s.dm.indexOf im.name)) im).1 = false →
       ∃ surv,
         s.cache.get (s.dm.fileNameAt (s.dm.indexOf im.name)) = some surv ∧
         Core.onLoadFinished (some im) s =
           (Core.displayImage (some surv) s).map
             (fun p => (p.1, Effect.deleteImage im :: p.2))) ∧
    (s.dm.indexOf im.name = s.state.currentIndex →
       (Core.onLoadFinished (some im) s).map
           (fun p => (p.1.state.isWaitingForLoader,
                      p.1.state.hasActiveImage)) = some (false, true)) := by
  refine ⟨?_, ?_, ?_, ?_, ?_, ?_⟩
  · intro hout
    have hrel : (!(decide (s.dm.indexOf im.name < s.state.currentIndex - 1) ||
        decide (s.dm.indexOf im.name > s.state.currentIndex + 1))) = false := by
      rcases hout with h | h
      · simp [decide_eq_true h]
      · simp [decide_eq_true h]
    have hne : s.dm.indexOf im.name ≠ s.state.currentIndex := by omega
    simp [Core.onLoadFinished, hrel, if_neg hne]
  · intro hin hne hins
    rw [insert_fst_eq] at hins
    have hcont : s.cache.contains
        (s.dm.fileNameAt (s.dm.indexOf im.name)) = false := by
      simpa using hins
    have h1 : ¬(s.dm.indexOf im.name < s.state.currentIndex - 1) := by omega
    have h2 : ¬(s.dm.indexOf im.name > s.state.currentIndex + 1) := by omega
    have hrel : (!(decide (s.dm.indexOf im.name < s.state.currentIndex - 1) ||
        decide (s.dm.indexOf im.name > s.state.currentIndex + 1))) = true := by
      simp [decide_eq_false h1, decide_eq_false h2]
    simp [Core.onLoadFinished, hrel, Cache.insert, hcont, if_neg hne]
  · intro hin hne hins
    rw [insert_fst_eq] at hins
    have hcont : s.cache.contains
        (s.dm.fileNameAt (s.dm.indexOf im.name)) = true := by
      simpa using hins
    have h1 : ¬(s.dm.indexOf im.name < s.state.currentIndex - 1) := by omega
    have h2 : ¬(s.dm.indexOf im.name > s.state.currentIndex + 1) := by omega
    have hrel : (!(decide (s.dm.indexOf im.name < s.state.currentIndex - 1) ||
        decide (s.dm.indexOf im.name > s.state.currentIndex + 1))) = true := by
      simp [decide_eq_false h1, decide_eq_false h2]
    simp [Core.onLoadFinished, hrel, Cache.insert, hcont, if_neg hne]
  · intro hcur hins
    rw [insert_fst_eq] at hins
    have hcont : s.cache.contains
        (s.dm.fileNameAt (s.dm.indexOf im.name)) = false := by
      simpa using hins
    have h1 : ¬(s.dm.indexOf im.name < s.state.currentIndex - 1) := by omega
    have h2 : ¬(s.dm.indexOf im.name > s.state.currentIndex + 1) := by omega
    have hrel : (!(decide (s.dm.indexOf im.name < s.state.currentIndex - 1) ||
        decide (s.dm.indexOf im.name > s.state.currentIndex + 1))) = true := by
      simp [decide_eq_false h1, decide_eq_false h2]
    simp [Core.onLoadFinished, hrel, Cache.insert, hcont, if_pos hcur]
  · intro hcur hins
    rw [insert_fst_eq] at hins
    have hcont : s.cache.contains
        (s.dm.fileNameAt (s.dm.indexOf im.name)) = true := by
      simpa using hins
    have h1 : ¬(s.dm.indexOf im.name < s.state.currentIndex - 1) := by omega
    have h2 : ¬(s.dm.indexOf im.name > s.state.currentIndex + 1) := by omega
    have hrel : (!(decide (s.dm.indexOf im.name < s.state.currentIndex - 1) ||
        decide (s.dm.indexOf im.name > s.state.currentIndex + 1))) = true := by
      simp [decide_eq_false h1, decide_eq_false h2]
    have hcont' := hcont
    rw [contains_eq_isSome_get] at hcont'
    obtain ⟨surv, hsurv⟩ := Option.isSome_iff_exists.mp hcont'
    refine ⟨surv, hsurv, ?_⟩
    cases hdisp : Core.displayImage (some surv) s with
    | none =>
      simp [Core.onLoadFinished, hrel, Cache.insert, hcont, if_pos hcur,
            hsurv, hdisp]
    | some p =>
      simp [Core.onLoadFinished, hrel, Cache.insert, hcont, if_pos hcur,
            hsurv, hdisp]
  · intro hcur
    have h1 : ¬(s.dm.indexOf im.name < s.state.currentIndex - 1) := by omega
    have h2 : ¬(s.dm.indexOf im.name > s.state.currentIndex + 1) := by omega
    have hrel : (!(decide (s.dm.indexOf im.name < s.state.currentIndex - 1) ||
        decide (s.dm.indexOf im.name > s.state.currentIndex + 1))) = true := by
      simp [decide_eq_false h1, decide_eq_false h2]
    by_cases hcont : s.cache.contains
        (s.dm.fileNameAt (s.dm.indexOf im.name)) = true
    · have hcont' := hcont
      rw [contains_eq_isSome_get] at hcont'
      obtain ⟨surv, hsurv⟩ := Option.isSome_iff_exists.mp hcont'
      have hsurv' : s.cache.get
          (s.dm.fileNameAt s.state.currentIndex) = some surv := by
        rw [← hcur]; exact hsurv
      obtain ⟨r, hr⟩ := displayImage_total surv s surv hsurv'
      obtain ⟨dn, hdn⟩ := displayImage_shape _ _ _ hr
      have hout : Core.onLoadFinished (some im) s =
          some (r.1, Effect.deleteImage im :: r.2) := by
        simp [Core.onLoadFinished, hrel, Cache.insert, hcont,
              if_pos hcur, hsurv, hr]
      rw [hout]
      simp only [Option.map_some']
      rw [hdn]
      rfl
    · have hcont2 : s.cache.contains
          (s.dm.fileNameAt (s.dm.indexOf im.name)) = false := by
        simpa using hcont
      have hget1 : (s.cache.insert
            (s.dm.fileNameAt (s.dm.indexOf im.name)) im).2.get
            (s.dm.fileNameAt (s.dm.indexOf im.name)) = some im := by
        simp [Cache.insert, hcont2, Cache.get, List.find?]
      have hget2 : (s.cache.insert
            (s.dm.fileNameAt (s.dm.indexOf im.name)) im).2.get
            (s.dm.fileNameAt s.state.currentIndex) = some im := by
        rw [← hcur]; exact hget1
      obtain ⟨r, hr⟩ := displayImage_total im
        { s with cache := (s.cache.insert
            (s.dm.fileNameAt (s.dm.indexOf im.name)) im).2 } im hget2
      obtain ⟨dn, hdn⟩ := displayImage_shape _ _ _ hr
      simp only [Cache.insert, hcont2, Bool.false_eq_true, if_false] at hr
      have hout : Core.onLoadFinished (some im) s = some r := by
        simp [Core.onLoadFinished, hrel, Cache.insert, hcont2,
              if_pos hcur, hr]
      rw [hout]
      simp only [Option.map_some']
      rw [hdn]
      rfl

/-- A third sample image whose name is the last directory entry. -/
def sampleImageC : Image := { sampleImage with name := "c.png" }

/-- Witness for C2: at `currentIndex = 0`, a completed load for `c.png`
(index 2, outside the window) is deleted with no state change, and a
completed load for the current file resolves the display flags. -/
theorem c2_load_completion_witness :
    Core.onLoadFinished (some sampleImageC) sampleState =
      some (sampleState, [Effect.deleteImage sampleImageC]) ∧
    (Core.onLoadFinished (some sampleImage) sampleState).map
        (fun p => (p.1.state.isWaitingForLoader,
                   p.1.state.hasActiveImage)) = some (false, true) :=
  ⟨(c2_load_completion sampleImageC sampleState).1 (by decide),
   (c2_load_completion sampleImage sampleState).2.2.2.2.2 (by decide)⟩

/-- C4: in a three-file directory at the last index (currentIndex = 2),
`slotNextImage` with infinite scrolling disabled leaves the state unchanged
and emits only the directory-end boundary message (no load submission, no
navigation-state change); with infinite scrolling enabled the same call sets
`currentIndex = 0`. -/
theorem c4_boundary_navigation (s : CoreState)
    (hcount : s.dm.files.length = 3)
    (hcur : s.state.currentIndex = 2) :
    (s.infiniteScrolling = false →
      Core.slotNextImage s = some (s, [Effect.showMessageDirectoryEnd])) ∧
    (s.infiniteScrolling = true →
      (Core.slotNextImage s).map (fun p => p.1.state.currentIndex) =
        some 0) := by
  have hhas : s.dm.hasImages = true := by
    simp [DirManager.hasImages, hcount]
  have hfc : s.dm.fileCount = 3 := by
    unfold DirManager.fileCount
    rw [hcount]
    rfl
  have hge : s.state.currentIndex + 1 ≥ s.dm.fileCount := by
    rw [hcur, hfc]
    decide
  constructor
  · intro hinf
    exact slotNextImage_boundary s hhas hge hinf
  · intro hinf
    obtain ⟨s', fx, heq, hcur0⟩ := slotNextImage_wrap s hhas hge hinf
    rw [heq]
    simp [hcur0]

/-- Witness for C4 at a concrete three-file state at the last index. -/
theorem c4_boundary_navigation_witness :
    Core.slotNextImage { sampleState with
        state := { sampleState.state with currentIndex := 2 } } =
      some ({ sampleState with
              state := { sampleState.state with currentIndex := 2 } },
            [Effect.showMessageDirectoryEnd]) ∧
    (Core.slotNextImage { sampleState with
        state := { sampleState.state with currentIndex := 2 },
        infiniteScrolling := true }).map
        (fun p => p.1.state.currentIndex) = some 0 :=
  ⟨(c4_boundary_navigation _ (by decide) (by decide)).1 rfl,
   (c4_boundary_navigation _ (by decide) (by decide)).2 rfl⟩

/-- C5: after any successful navigation `loadByIndex k`, every cache entry
that is not pinned by a reservation has as key one of the file names at the
valid indices among `{k-1, k, k+1}` (assuming the cache held no empty-string
key, as cache keys are always real file names). -/
theorem c5_window_invariant (k : Int) (s : CoreState)
    (hkeys : ∀ e ∈ s.cache.entries, e.key ≠ "")
    (s' : CoreState) (fx : List Effect)
    (hrun : Core.loadByIndex k s = some (true, s', fx)) :
    ∀ e ∈ s'.cache.entries, e.reserved = 0 → e.key ∈ windowKeys k s.dm := by
  have hcache := loadByIndex_cache k s s' fx hrun
  intro e he hres
  rw [hcache] at he
  obtain ⟨hmem, hkeep⟩ := mem_trimTo _ _ _ he
  rcases hkeep with hkeep | hkeep
  · have hne := hkeys e hmem
    have hkeep' : e.key ∈ [s.dm.fileNameAt (k - 1), s.dm.fileNameAt k,
                           s.dm.fileNameAt (k + 1)] := by
      simpa using hkeep
    simp only [List.mem_cons, List.not_mem_nil, or_false] at hkeep'
    rcases hkeep' with hk | hk | hk
    · exact key_mem_windowKeys s.dm k (k - 1) e.key (Or.inl rfl) hk hne
    · exact key_mem_windowKeys s.dm k k e.key (Or.inr (Or.inl rfl)) hk hne
    · exact key_mem_windowKeys s.dm k (k + 1) e.key (Or.inr (Or.inr rfl)) hk
        hne
  · exact absurd hres hkeep

/-- Witness for C5: navigating to index 1 over the sample state keeps the
cached entry for `a.png`, whose key indeed lies in the valid window. -/
theorem c5_window_invariant_witness :
    "a.png" ∈ windowKeys 1 sampleDm :=
  c5_window_invariant 1 sampleState (by decide)
    ((Core.loadByIndex 1 sampleState).getD (false, sampleState, [])).2.1
    ((Core.loadByIndex 1 sampleState).getD (false, sampleState, [])).2.2
    rfl ⟨"a.png", sampleImage, 0⟩ (by decide) rfl

/-- C9: the info string is
`"[ index+1 / count ]   name  (width x height  sizeKB KB)"` with a 1-based
index; a file name longer than 95 characters is displayed as its 95 leading
characters, the infix " (...) ", and its 12 trailing characters; a name of
at most 95 characters is shown in full. -/
theorem c9_info_string_format (s : CoreState) (img : Image)
    (hw : s.state.isWaitingForLoader = false)
    (hget : s.cache.get (s.dm.fileNameAt s.state.currentIndex) = some img) :
    Core.updateInfoString s =
      some [Effect.setInfoString
        ("[ " ++ toString (s.state.currentIndex + 1) ++ " / " ++
         toString s.dm.fileCount ++ " ]   " ++
         (if img.name.length > 95 then
            img.name.take 95 ++ " (...) " ++ img.name.takeRight 12
          else img.name) ++ "  " ++
         "(" ++ toString img.width ++ " x " ++ toString img.height ++ "  " ++
         toString img.fileSizeKB ++ " KB)")] := by
  unfold Core.updateInfoString
  rw [hw]
  simp [hget]

/-- A 100-character file name, for exercising the truncation branch. -/
def sampleLongName : String := String.mk (List.replicate 100 'x')

/-- The sample image carrying the 100-character name. -/
def sampleLongImage : Image := { sampleImage with name := sampleLongName }

/-- The sample state whose cached current image has the 100-character name. -/
def sampleLongState : CoreState :=
  { sampleState with cache := ⟨[⟨"a.png", sampleLongImage, 0⟩]⟩ }

/-- Witness for C9 at a concrete state with a 100-character file name. -/
theorem c9_info_string_format_witness :
    Core.updateInfoString sampleLongState =
      some [Effect.setInfoString
        ("[ " ++ toString (sampleLongState.state.currentIndex + 1) ++ " / " ++
         toString sampleLongState.dm.fileCount ++ " ]   " ++
         (if sampleLongImage.name.length > 95 then
            sampleLongImage.name.take 95 ++ " (...) " ++
              sampleLongImage.name.takeRight 12
          else sampleLongImage.name) ++ "  " ++
         "(" ++ toString sampleLongImage.width ++ " x " ++
         toString sampleLongImage.height ++ "  " ++
         toString sampleLongImage.fileSizeKB ++ " KB)")] :=
  c9_info_string_format sampleLongState sampleLongImage rfl rfl

/-- C10: `Core::loadByIndexBlocking` is extensionally equal to
`Core::loadByIndex` on every index and state; outside `[0, fileCount)` it
returns `false` with no state change and no effects; and its effect trace
never contains a blocking-loader submission. -/
theorem c10_loadByIndex_equivalence (i : Int) (s : CoreState) :
    Core.loadByIndexBlocking i s = Core.loadByIndex i s ∧
    (¬(0 ≤ i ∧ i < s.dm.fileCount) →
      Core.loadByIndexBlocking i s = some (false, s, [])) ∧
    (∀ r, Core.loadByIndexBlocking i s = some r →
      r.2.2.any Effect.isLoadBlocking = false) := by
  refine ⟨rfl, ?_, ?_⟩
  · intro h
    simp only [Core.loadByIndexBlocking, if_neg h]
  · intro r hr
    exact loadByIndex_no_blocking i s r hr

/-- Witness for C10 at a concrete out-of-range index. -/
theorem c10_loadByIndex_equivalence_witness :
    Core.loadByIndexBlocking 5 sampleState = some (false, sampleState, []) ∧
    (((false, sampleState, ([] : List Effect)) :
        Bool × CoreState × List Effect)).2.2.any Effect.isLoadBlocking
      = false :=
  ⟨(c10_loadByIndex_equivalence 5 sampleState).2.1 (by decide),
   (c10_loadByIndex_equivalence 5 sampleState).2.2
     (false, sampleState, []) rfl⟩
